import Mathlib

/-!
Verification of the run-plan training-calendar engine.

The TypeScript source is embedded shallowly:

* JS `number` is modelled as `ℚ` (the source performs only +, *, /,
  `Math.round`, and comparisons on plan data; every concrete value used in a
  theorem below is far from any rounding boundary, so the rational model
  agrees with IEEE doubles on them).
* A day bucket (`Run[]` in TS) is `List (Option Run)`: the source arrays can
  contain `null`/`undefined` holes (imported data, or holes produced by the
  engine itself), and the source defensively filters them (`filter(Boolean)`).
* Fallible session operations return the resulting state together with an
  `Option String` carrying the thrown error message, so that a `throw` that
  happens after some state was already committed is representable.

Functions keep the names of the source functions they embed
(`recalculateWeeklyTotal`, `handleUpdateRun`, `moveWorkout`,
`updateSchemaAfterEdit`, `importPlanSchema`, `validateSchema`, ...).
-/

namespace RunPlan

/-- JS `Math.round`: rounds to the nearest integer, halves toward +∞. -/
def jsRound (q : ℚ) : ℤ := ⌊q + 1/2⌋

/-- The source's one-decimal rounding idiom `Math.round(x * 10) / 10`. -/
def round1 (q : ℚ) : ℚ := (jsRound (q * 10) : ℚ) / 10

/-- The conversion factor `0.621371` from `lib/utils.ts`. -/
def kmMilesFactor : ℚ := 621371 / 1000000

/-- `kmToMiles` from `lib/utils.ts`: `km * 0.621371`. -/
def kmToMiles (km : ℚ) : ℚ := km * kmMilesFactor

/-- `milesToKm` from `lib/utils.ts`: `miles / 0.621371`. -/
def milesToKm (miles : ℚ) : ℚ := miles / kmMilesFactor

/-- The closed set of workout types (`Run["type"]`). -/
inductive RunType
  | Rest | Easy | Long | Interval | Tempo | Race | Strength
deriving DecidableEq

/-- The `measurementType` selector of a workout. -/
inductive Measurement
  | distance | time
deriving DecidableEq

/-- A workout (`Run` from `lib/planGenerator`): optional fields are `Option`. -/
structure Run where
  id : String
  type : RunType
  measurementType : Option Measurement
  distance : Option ℚ
  time : Option ℚ
  nickname : Option String
  description : Option String
deriving DecidableEq

/-- The seven fixed day keys. -/
inductive Day
  | Mon | Tue | Wed | Thu | Fri | Sat | Sun
deriving DecidableEq

/-- `Record<Day, Run[]>`: the seven day buckets of a week.  Entries are
`Option Run` so that `null`/`undefined` holes of the source arrays are
representable (`none` is a hole). -/
structure DayMap where
  mon : List (Option Run)
  tue : List (Option Run)
  wed : List (Option Run)
  thu : List (Option Run)
  fri : List (Option Run)
  sat : List (Option Run)
  sun : List (Option Run)
deriving DecidableEq

def DayMap.get (m : DayMap) : Day → List (Option Run)
  | .Mon => m.mon
  | .Tue => m.tue
  | .Wed => m.wed
  | .Thu => m.thu
  | .Fri => m.fri
  | .Sat => m.sat
  | .Sun => m.sun

def DayMap.set (m : DayMap) : Day → List (Option Run) → DayMap
  | .Mon, l => { m with mon := l }
  | .Tue, l => { m with tue := l }
  | .Wed, l => { m with wed := l }
  | .Thu, l => { m with thu := l }
  | .Fri, l => { m with fri := l }
  | .Sat, l => { m with sat := l }
  | .Sun, l => { m with sun := l }

/-- `Object.values(week.days)` in insertion order Mon..Sun. -/
def DayMap.toList (m : DayMap) : List (List (Option Run)) :=
  [m.mon, m.tue, m.wed, m.thu, m.fri, m.sat, m.sun]

/-- An empty day map (all seven buckets empty). -/
def DayMap.empty : DayMap := ⟨[], [], [], [], [], [], []⟩

/-- A training week (`Week` from `lib/planGenerator`). -/
structure Week where
  week : ℤ
  startDate : String
  days : DayMap
  weeklyTotal : ℚ
deriving DecidableEq

def Week.setDay (w : Week) (d : Day) (l : List (Option Run)) : Week :=
  { w with days := w.days.set d l }

/-- JS `array[i]` on a bucket that may contain holes: an out-of-range index
and a `null` entry both read as `undefined`, i.e. `none`. -/
def jsGet (runs : List (Option Run)) (i : ℕ) : Option Run :=
  runs[i]?.join

/-- JS `array.splice(i, 1)` as a pure value: removes the element at `i`
(no-op when `i` is out of range). -/
def spliceRemove (runs : List (Option Run)) (i : ℕ) : List (Option Run) :=
  runs.take i ++ runs.drop (i + 1)

/-- JS `array.splice(i, 0, x)` as a pure value: inserts `x` at position `i`;
an out-of-range `i` clamps to append-at-end (JS splice behaviour). -/
def spliceInsert (runs : List (Option Run)) (i : ℕ) (x : Option Run) :
    List (Option Run) :=
  runs.take i ++ x :: runs.drop i

/-- JS `array.map((elem, index) => ...)`, visiting indices in ascending
order starting from `n`. -/
def jsMapIdxFrom (f : ℕ → α → β) : ℕ → List α → List β
  | _, [] => []
  | n, a :: as => f n a :: jsMapIdxFrom f (n + 1) as

/-- JS `array.map((elem, index) => ...)`. -/
def jsMapIdx (f : ℕ → α → β) (l : List α) : List β :=
  jsMapIdxFrom f 0 l

/-- The inner `reduce` of `recalculateWeeklyTotal`: filters holes
(`filter(Boolean)`) and adds `run.distance` whenever it is a number, else 0,
with no look at `measurementType`. -/
def bucketReduce (runs : List (Option Run)) : ℚ :=
  (runs.filterMap id).foldl (fun dayTotal run => dayTotal + run.distance.getD 0) 0

/-- `recalculateWeeklyTotal` from `components/TrainingTable.tsx` (lines
65-81): folds all seven buckets, rounds to the nearest whole unit and stores
the result in `weeklyTotal`; no other field changes. -/
def recalculateWeeklyTotal (w : Week) : Week :=
  { w with weeklyTotal :=
      (jsRound (w.days.toList.foldl (fun total runs => total + bucketReduce runs) 0) : ℚ) }

/-- The partial-update record taken by `handleUpdateRun` (a field that is
`none` was not supplied, i.e. was `undefined`). -/
structure RunUpdates where
  measurementType : Option Measurement := none
  distance : Option ℚ := none
  time : Option ℚ := none
  description : Option String := none
deriving DecidableEq

/-- The body of `handleUpdateRun` acting on one run: if a `measurementType`
is supplied the opposite field is cleared, then any supplied `distance`,
`time` and `description` are applied (in the source's order, so a supplied
opposite field survives the clearing). -/
def applyRunUpdates (run : Run) (u : RunUpdates) : Run :=
  let r1 :=
    match u.measurementType with
    | none => run
    | some .distance => { run with measurementType := some .distance, time := none }
    | some .time => { run with measurementType := some .time, distance := none }
  let r2 := match u.distance with
    | none => r1
    | some d => { r1 with distance := some d }
  let r3 := match u.time with
    | none => r2
    | some t => { r2 with time := some t }
  match u.description with
  | none => r3
  | some s => { r3 with description := some s }

/-- `handleUpdateRun` from `components/TrainingTable.tsx` (lines 993-1047):
the guard `if (runs[runIndex])` makes a missing or `null` entry a silent
no-op; otherwise the updated run replaces the entry and the week total is
recalculated. -/
def handleUpdateRun (weeks : List Week) (weekIndex : ℕ) (day : Day)
    (runIndex : ℕ) (u : RunUpdates) : List Week :=
  jsMapIdx (fun index week =>
    if index = weekIndex then
      match (week.days.get day)[runIndex]? with
      | some (some run) =>
          recalculateWeeklyTotal
            (week.setDay day
              ((week.days.get day).set runIndex (some (applyRunUpdates run u))))
      | _ => week
    else week) weeks

/-- `handleUpdateNickname` from `components/TrainingTable.tsx`: text-only,
an empty string is stored as absent; no total recalculation. -/
def handleUpdateNickname (weeks : List Week) (weekIndex : ℕ) (day : Day)
    (runIndex : ℕ) (nickname : String) : List Week :=
  jsMapIdx (fun index week =>
    if index = weekIndex then
      match (week.days.get day)[runIndex]? with
      | some (some run) =>
          week.setDay day
            ((week.days.get day).set runIndex
              (some { run with nickname := if nickname = "" then none else some nickname }))
      | _ => week
    else week) weeks

/-- The workout argument of `handleAddRun` (from the add-workout modal). -/
structure WorkoutSpec where
  type : RunType
  nickname : Option String := none
  measurementType : Option Measurement := none
  distance : Option ℚ := none
  time : Option ℚ := none
  description : Option String := none
deriving DecidableEq

/-- JS truthiness of an optional number: `undefined` and `0` are falsy. -/
def jsTruthy (q : Option ℚ) : Option ℚ :=
  match q with
  | some x => if x = 0 then none else some x
  | none => none

/-- The run built by `handleAddRun` (lines 1094-1108 of TrainingTable.tsx).
The source's id is `weekIndex-day-type-` followed by a random suffix; the
freshly minted id is passed in as `newId` here (the engine never reads it
back). Defaults follow the source exactly: `measurementType` defaults to
distance; `distance` defaults to `workout.distance || 5` except 0 for
Strength; `time` defaults to `workout.time || 30` when time-measured. -/
def makeNewRun (newId : String) (w : WorkoutSpec) : Run :=
  let mt := w.measurementType.getD .distance
  let defaultDistance : ℚ := if w.type = .Strength then 0 else (jsTruthy w.distance).getD 5
  let defaultTime : Option ℚ :=
    match jsTruthy w.time with
    | some t => some t
    | none => if mt = .time then some 30 else none
  { id := newId
    type := w.type
    measurementType := some mt
    distance := if mt = .distance then some defaultDistance else none
    time := if mt = .time then defaultTime else none
    nickname := w.nickname
    description := w.description }

/-- `handleAddRun` from `components/TrainingTable.tsx` (lines 1077-1118):
appends the new run to the end of the addressed bucket and recalculates that
week's total; a non-existent week index leaves every week unchanged. -/
def handleAddRun (weeks : List Week) (weekIndex : ℕ) (day : Day)
    (w : WorkoutSpec) (newId : String) : List Week :=
  jsMapIdx (fun index week =>
    if index = weekIndex then
      recalculateWeeklyTotal
        (week.setDay day (week.days.get day ++ [some (makeNewRun newId w)]))
    else week) weeks

/-- `handleRemoveRun` from `components/TrainingTable.tsx` (lines 1120-1136):
`runs.splice(runIndex, 1)` (silently a no-op when out of range), then the
week total is recalculated. -/
def handleRemoveRun (weeks : List Week) (weekIndex : ℕ) (day : Day)
    (runIndex : ℕ) : List Week :=
  jsMapIdx (fun index week =>
    if index = weekIndex then
      recalculateWeeklyTotal
        (week.setDay day (spliceRemove (week.days.get day) runIndex))
    else week) weeks

/-- The same-day reorder branch of `handleDragEnd` (lines 1172-1186):
`splice` out the item at `fromIndex` and re-insert it at `toIndex`; the
weekly total is deliberately not recalculated. -/
def reorderWithinDay (weeks : List Week) (weekIndex : ℕ) (day : Day)
    (fromIndex toIndex : ℕ) : List Week :=
  jsMapIdx (fun index week =>
    if index = weekIndex then
      let runs := week.days.get day
      week.setDay day (spliceInsert (spliceRemove runs fromIndex) toIndex (jsGet runs fromIndex))
    else week) weeks

/-- `moveWorkout` from `components/TrainingTable.tsx` (lines 1237-1287).

Aliasing in the source matters here and is modelled faithfully:
`const updatedWeek = { ...week }` is a shallow copy, so `updatedWeek.days`
is the very `days` object of the week stored in the `weeks` state array, and
`updatedWeek.days[fromDay] = fromRuns` mutates it in place.  `Array.map`
visits indices in ascending order, so when the destination week comes after
the source week (`fromWeekIndex < toWeekIndex`), the destination branch's
read `weeks[fromWeekIndex].days[fromDay][fromRunIndex]` sees the already
spliced source bucket; when the destination comes first it sees the original
bucket.  The branch for a non-existent `fromWeekIndex` would dereference
`undefined` in the source; it is modelled as leaving the week unchanged and
no theorem below exercises it. -/
def moveWorkout (weeks : List Week) (fromWeekIndex : ℕ) (fromDay : Day)
    (fromRunIndex : ℕ) (toWeekIndex : ℕ) (toDay : Day) (toRunIndex : ℕ) :
    List Week :=
  jsMapIdx (fun weekIndex week =>
    if weekIndex = fromWeekIndex then
      let fromRuns := spliceRemove (week.days.get fromDay) fromRunIndex
      let movedRun := jsGet (week.days.get fromDay) fromRunIndex
      let sourceWeek := recalculateWeeklyTotal (week.setDay fromDay fromRuns)
      if fromWeekIndex = toWeekIndex then
        recalculateWeeklyTotal
          (sourceWeek.setDay toDay
            (spliceInsert (sourceWeek.days.get toDay) toRunIndex movedRun))
      else sourceWeek
    else if weekIndex = toWeekIndex then
      match weeks[fromWeekIndex]? with
      | some sourceWeek =>
          let sourceBucket :=
            if fromWeekIndex < toWeekIndex then
              spliceRemove (sourceWeek.days.get fromDay) fromRunIndex
            else sourceWeek.days.get fromDay
          let movedRun := jsGet sourceBucket fromRunIndex
          recalculateWeeklyTotal
            (week.setDay toDay (spliceInsert (week.days.get toDay) toRunIndex movedRun))
      | none => week
    else week) weeks

/-- Display units. -/
inductive DistUnit
  | km | miles
deriving DecidableEq

/-- The per-run distance conversion used by `handleUnitToggle`. -/
def convertDistance (fromUnit toUnit : DistUnit) (d : ℚ) : ℚ :=
  match fromUnit, toUnit with
  | .km, .miles => kmToMiles d
  | .miles, .km => milesToKm d
  | _, _ => d

/-- One run inside `handleUnitToggle`'s map: a falsy (`undefined` or `0`)
distance leaves the run untouched and contributes nothing; otherwise the
stored distance becomes the converted value rounded to one decimal, while
the returned contribution to `newWeeklyTotal` is the unrounded converted
value (exactly as in the source, lines 940-958).  A `null` entry would crash
the source (`run.distance` on `null`); it is kept as a hole here and no
theorem below evaluates the conversion on a plan with holes. -/
def convertRun (fromUnit toUnit : DistUnit) (r : Run) : Run × ℚ :=
  match r.distance with
  | none => (r, 0)
  | some d =>
      if d = 0 then (r, 0)
      else
        let convertedDistance := convertDistance fromUnit toUnit d
        ({ r with distance := some (round1 convertedDistance) }, convertedDistance)

/-- One bucket inside `handleUnitToggle`: converts each entry and sums the
unrounded contributions. -/
def convertBucket (fromUnit toUnit : DistUnit) :
    List (Option Run) → List (Option Run) × ℚ
  | [] => ([], 0)
  | none :: rest =>
      let (l, s) := convertBucket fromUnit toUnit rest
      (none :: l, s)
  | some r :: rest =>
      let (r2, c) := convertRun fromUnit toUnit r
      let (l, s) := convertBucket fromUnit toUnit rest
      (some r2 :: l, c + s)

/-- One week inside `handleUnitToggle` (lines 925-966): every bucket is
converted and `weeklyTotal` is set to `Math.round(newWeeklyTotal)` where
`newWeeklyTotal` accumulates the unrounded converted distances (not the
stored one-decimal-rounded ones). -/
def convertWeek (fromUnit toUnit : DistUnit) (w : Week) : Week :=
  let mon := convertBucket fromUnit toUnit w.days.mon
  let tue := convertBucket fromUnit toUnit w.days.tue
  let wed := convertBucket fromUnit toUnit w.days.wed
  let thu := convertBucket fromUnit toUnit w.days.thu
  let fri := convertBucket fromUnit toUnit w.days.fri
  let sat := convertBucket fromUnit toUnit w.days.sat
  let sun := convertBucket fromUnit toUnit w.days.sun
  { w with
    days := ⟨mon.1, tue.1, wed.1, thu.1, fri.1, sat.1, sun.1⟩
    weeklyTotal :=
      (jsRound (mon.2 + tue.2 + wed.2 + thu.2 + fri.2 + sat.2 + sun.2) : ℚ) }

/-- The plan-level conversion of `handleUnitToggle` from
`components/TrainingTable.tsx` (lines 919-972): converts every week from
`currentUnit` to the opposite unit. -/
def handleUnitToggle (currentUnit : DistUnit) (weeks : List Week) : List Week :=
  let newUnit : DistUnit := match currentUnit with | .km => .miles | .miles => .km
  weeks.map (convertWeek currentUnit newUnit)

/-! ## Versioned schema wrapper (`lib/planSchema.ts`) -/

/-- Provenance of the current document. -/
inductive Source
  | generated | imported | edited
deriving DecidableEq

/-- One workout assignment inside the generation settings. -/
structure SettingsWorkout where
  runType : String
  nickname : Option String
deriving DecidableEq

/-- One weekday assignment inside the generation settings. -/
structure TrainingDaySetting where
  day : String
  workouts : List SettingsWorkout
deriving DecidableEq

/-- The generation parameters (`PlanSettings`). -/
structure PlanSettings where
  todayDate : String
  raceDate : String
  raceDistance : String
  customRaceDistance : Option ℚ
  unit : DistUnit
  trainingDays : List TrainingDaySetting
deriving DecidableEq

/-- A plan: the ordered list of weeks (`TrainingPlan`). -/
structure TrainingPlan where
  weeks : List Week
deriving DecidableEq

/-- The versioned wrapper (`TrainingPlanSchema`). -/
structure TrainingPlanSchema where
  version : String
  createdAt : String
  updatedAt : String
  source : Source
  settings : PlanSettings
  plan : TrainingPlan
deriving DecidableEq

/-- `cleanPlanData` from `lib/planSchema.ts`: removes `null`/`undefined`
entries from every day bucket. -/
def cleanPlanData (p : TrainingPlan) : TrainingPlan :=
  { weeks := p.weeks.map (fun w =>
      { w with days :=
          ⟨w.days.mon.filter Option.isSome, w.days.tue.filter Option.isSome,
           w.days.wed.filter Option.isSome, w.days.thu.filter Option.isSome,
           w.days.fri.filter Option.isSome, w.days.sat.filter Option.isSome,
           w.days.sun.filter Option.isSome⟩ }) }

/-- `updateSchemaAfterEdit` from `lib/planSchema.ts` (lines 154-166): stamps
`updatedAt` with the current time (passed in as `now`), advances `source`
from generated to edited and otherwise keeps it, and replaces the plan with
the cleaned argument. -/
def updateSchemaAfterEdit (now : String) (schema : TrainingPlanSchema)
    (plan : TrainingPlan) : TrainingPlanSchema :=
  { schema with
    updatedAt := now
    source := if schema.source = .generated then .edited else schema.source
    plan := cleanPlanData plan }

/-! ## Raw (unvalidated) import payloads and the session coordinator

An imported JSON document is untyped at runtime: day keys and run types are
arbitrary strings, and any field may be missing (`none`).  The `Raw` types
below model exactly the fields the validation code reads. -/

/-- A raw workout of an imported payload. -/
structure RawRun where
  type : Option String
  measurementType : Option String
  distance : Option ℚ
  time : Option ℚ
deriving DecidableEq

/-- A raw week: `days` is an association list because the payload's day keys
are arbitrary strings (JS object keys in insertion order, no duplicates). -/
structure RawWeek where
  week : Option ℤ
  startDate : Option String
  days : Option (List (String × List (Option RawRun)))
  weeklyTotal : Option ℚ
deriving DecidableEq

/-- A raw plan. -/
structure RawPlan where
  weeks : Option (List RawWeek)
deriving DecidableEq

/-- A raw workout assignment of the raw settings. -/
structure RawWorkout where
  runType : Option String
  nickname : Option String
deriving DecidableEq

/-- A raw weekday assignment of the raw settings (`none` models a `null`
entry of the `trainingDays` array). -/
structure RawTrainingDay where
  day : Option String
  workouts : Option (List RawWorkout)
deriving DecidableEq

/-- Raw generation settings. -/
structure RawSettings where
  todayDate : Option String
  raceDate : Option String
  raceDistance : Option String
  customRaceDistance : Option ℚ
  unit : Option String
  trainingDays : Option (List (Option RawTrainingDay))
deriving DecidableEq

/-- A raw imported document. -/
structure RawSchema where
  version : Option String
  createdAt : Option String
  updatedAt : Option String
  source : Option String
  settings : Option RawSettings
  plan : Option RawPlan
deriving DecidableEq

/-- The seven valid day keys, in the order the source enumerates them. -/
def validDays : List String := ["Mon", "Tue", "Wed", "Thu", "Fri", "Sat", "Sun"]

/-- The valid run types, in the order the source enumerates them in
`importPlanSchema`. -/
def validRunTypes : List String :=
  ["Rest", "Easy", "Long", "Interval", "Tempo", "Race", "Strength"]

/-- JS `week.days[dayKey] || []` on the raw days object: first matching key,
empty when absent. -/
def rawDaysLookup (days : List (String × List (Option RawRun))) (key : String) :
    List (Option RawRun) :=
  match days.find? (fun e => e.1 = key) with
  | some e => e.2
  | none => []

/-- JS template interpolation of a possibly-undefined number. -/
def showOptInt : Option ℤ → String
  | some n => toString n
  | none => "undefined"

/-- The run-type error messages that `importPlanSchema` collects for one
bucket (`run ${runIndex + 1}` is 1-based; a `null` entry is skipped by the
`if (run && ...)` guard; an absent `type` prints as `"undefined"`). -/
def runTypeErrors (weekNum : Option ℤ) (dayKey : String)
    (runs : List (Option RawRun)) : List String :=
  (jsMapIdx (fun runIndex entry =>
    match entry with
    | none => []
    | some run =>
        let bad := match run.type with
          | some t => decide (t ∉ validRunTypes)
          | none => true
        if bad then
          ["Week " ++ showOptInt weekNum ++ ", " ++ dayKey ++ ", run "
            ++ toString (runIndex + 1) ++ ": Invalid run type \""
            ++ run.type.getD "undefined" ++ "\". Expected one of: "
            ++ String.intercalate ", " validRunTypes]
        else []) runs).flatten

/-- The validation errors that `importPlanSchema` collects for one week:
first the invalid-day-key error (when any key is invalid), then the
run-type errors for every key (including invalid ones), in key order. -/
def weekValidationErrors (w : RawWeek) : List String :=
  let days := w.days.getD []
  let dayKeys := days.map Prod.fst
  let invalidDayKeys := dayKeys.filter (fun k => k ∉ validDays)
  let keyErrs :=
    if invalidDayKeys.length > 0 then
      ["Week " ++ showOptInt w.week ++ ": Invalid day key(s): "
        ++ String.intercalate ", " invalidDayKeys ++ ". Expected one of: "
        ++ String.intercalate ", " validDays]
    else []
  keyErrs ++ (dayKeys.map (fun dk => runTypeErrors w.week dk (rawDaysLookup days dk))).flatten

/-- All plan-structure validation errors of `importPlanSchema`, aggregated
across every week (not short-circuited). -/
def planValidationErrors (weeks : List RawWeek) : List String :=
  (weeks.map weekValidationErrors).flatten

/-- Session lifecycle step. -/
inductive TrainingStep
  | configure | edit | export
deriving DecidableEq

/-- The form values rebuilt by `importPlanSchema` from the raw settings. -/
structure FormValues where
  todayDate : String
  raceDate : String
  raceDistance : String
  customRaceDistance : Option ℚ
  unit : String
  trainingDays : List TrainingDaySetting
deriving DecidableEq

/-- The three persisted session slots plus the step, owned by
`useTrainingSession`. -/
structure SessionState where
  formValues : Option FormValues
  plan : Option RawPlan
  schema : Option RawSchema
  step : TrainingStep
deriving DecidableEq

/-- JS `x || fallback` on an optional string (empty string is falsy). -/
def jsStringOr (s : Option String) (fallback : String) : String :=
  match s with
  | some v => if v = "" then fallback else v
  | none => fallback

/-- The `trainingDays.map` of `importPlanSchema`: throws on the first `null`
entry or missing `workouts` array (left to right, like JS `map`). -/
def buildTrainingDays : List (Option RawTrainingDay) →
    Except String (List TrainingDaySetting)
  | [] => .ok []
  | none :: _ => .error "Invalid training day: day is undefined"
  | some td :: rest =>
      match td.workouts with
      | none => .error "Invalid training day: workouts must be an array"
      | some ws =>
          match buildTrainingDays rest with
          | .error e => .error e
          | .ok tail =>
              .ok ({ day := jsStringOr td.day ""
                     workouts := ws.map (fun w =>
                       { runType := jsStringOr w.runType "Easy"
                         nickname := w.nickname }) } :: tail)

/-- The part of `importPlanSchema` after the plan-structure validation: the
schema slot is replaced first (`setSchema(incoming)`), then missing settings
cause an early `return` (schema already replaced), a bad `trainingDays`
throws (schema already replaced), and otherwise the form values and the plan
slots are replaced (the plan is set to `null` when the payload has none). -/
def importAfterValidation (st : SessionState) (incoming : RawSchema) :
    SessionState × Option String :=
  let st1 := { st with schema := some incoming }
  match incoming.settings with
  | none => (st1, none)
  | some s =>
      match s.trainingDays with
      | none => (st1, some "Invalid settings: trainingDays must be an array")
      | some tds =>
          match buildTrainingDays tds with
          | .error e => (st1, some e)
          | .ok fdays =>
              let fv : FormValues :=
                { todayDate := jsStringOr s.todayDate ""
                  raceDate := jsStringOr s.raceDate ""
                  raceDistance := jsStringOr s.raceDistance ""
                  customRaceDistance := s.customRaceDistance
                  unit := jsStringOr s.unit "km"
                  trainingDays := fdays }
              let st2 := { st1 with formValues := some fv }
              match incoming.plan with
              | some p =>
                  ({ st2 with
                     plan := some p
                     step := if (p.weeks.getD []).length > 0 then .edit else st2.step },
                   none)
              | none => ({ st2 with plan := none }, none)

/-- `importPlanSchema` from `lib/useTrainingSession.ts`: when a plan is
present, missing `weeks` or any day-key/run-type violation throws before any
state is touched; afterwards the document slots are replaced as in
`importAfterValidation`.  The returned `Option String` is the thrown error
message, `none` when the call returns normally. -/
def importPlanSchema (st : SessionState) (incoming : RawSchema) :
    SessionState × Option String :=
  match incoming.plan with
  | some p =>
      match p.weeks with
      | none => (st, some "Invalid plan structure: weeks array is missing")
      | some ws =>
          let validationErrors := planValidationErrors ws
          if validationErrors.length > 0 then
            (st, some ("Invalid plan structure: "
              ++ String.intercalate "; " validationErrors))
          else importAfterValidation st incoming
  | none => importAfterValidation st incoming

/-- The zod validation of one raw run against `runSchema` of
`lib/planSchema.ts`: `type` must be one of the closed set, and when
`measurementType` is given the matching measurement field must be present. -/
def zodValidRun (r : RawRun) : Bool :=
  (match r.type with
   | some t => validRunTypes.contains t
   | none => false) &&
  (match r.measurementType with
   | some "distance" => r.distance.isSome
   | some "time" => r.time.isSome
   | some _ => false
   | none => true)

/-- The zod validation of one raw week against `weekSchema`: `week`,
`startDate`, `days` and `weeklyTotal` must be present, every day key must
belong to the enum (`z.record(dayKeySchema, ...)`, commented in the source
as "Strict day key schema – only allow valid Day values"), and every
non-null bucket entry must be a valid run. -/
def zodValidWeek (w : RawWeek) : Bool :=
  w.week.isSome && w.startDate.isSome && w.weeklyTotal.isSome &&
  (match w.days with
   | none => false
   | some entries =>
       entries.all (fun e =>
         validDays.contains e.1 &&
         e.2.all (fun entry =>
           match entry with
           | none => true
           | some r => zodValidRun r)))

/-- The zod validation of the raw settings against `planSettingsSchema`:
the three date/distance strings and `trainingDays` are required, `unit` must
be one of km/miles when present, and every training day needs a `day` and a
`workouts` array of entries with a `runType`. -/
def zodValidSettings (s : RawSettings) : Bool :=
  s.todayDate.isSome && s.raceDate.isSome && s.raceDistance.isSome &&
  (match s.unit with
   | none => true
   | some u => u = "km" || u = "miles") &&
  (match s.trainingDays with
   | none => false
   | some tds => tds.all (fun td =>
       match td with
       | none => false
       | some td => td.day.isSome &&
           (match td.workouts with
            | none => false
            | some ws => ws.all (fun w => w.runType.isSome))))

/-- `validateSchema` from `lib/planSchema.ts` as a boolean: the zod parse of
`trainingPlanSchema` (wrapper fields, settings, plan with a `weeks` array of
valid weeks) plus the explicit non-empty `version` check. -/
def validateSchema (s : RawSchema) : Bool :=
  (match s.version with
   | some v => v ≠ ""
   | none => false) &&
  s.createdAt.isSome && s.updatedAt.isSome &&
  (match s.source with
   | some v => v = "generated" || v = "imported" || v = "edited"
   | none => false) &&
  (match s.settings with
   | some st => zodValidSettings st
   | none => false) &&
  (match s.plan with
   | some p =>
       match p.weeks with
       | some ws => ws.all zodValidWeek
       | none => false
   | none => false)

/-- `handleImportJSON` from `components/InputForm.tsx` after `JSON.parse`:
the payload is validated with `validateSchema` first; on failure only the
error banner is set (the session slots are untouched), on success
`importPlanSchema` runs.  The returned `Option String` is the surfaced
error, if any. -/
def importFile (st : SessionState) (raw : RawSchema) :
    SessionState × Option String :=
  if validateSchema raw then importPlanSchema st raw
  else (st, some "Invalid plan schema format.")

/-! ## Claim-side definitions

These state the properties the specification asserts; they are written from
the specification's wording and are compared against the embedded source
functions in the theorems below. -/

/-- Contribution of one bucket entry to a distance sum: the numeric
`distance` when present, else 0. -/
def entryDistance (e : Option Run) : ℚ :=
  ((e.bind Run.distance).getD 0)

/-- Sum of the `distance` field over all entries of a bucket that carry a
numeric distance (regardless of `measurementType`). -/
def bucketNumericSum (runs : List (Option Run)) : ℚ :=
  (((runs.filterMap id).filterMap Run.distance)).sum

/-- Sum of the `distance` field over every workout of a week that carries a
numeric distance. -/
def weekNumericSum (w : Week) : ℚ :=
  (w.days.toList.map bucketNumericSum).sum

/-- The specification's notion of a distance-measured workout
(`measurementType = distance`, or the legacy rule: no `measurementType` and
a `distance` present). -/
def Run.distanceMeasured (r : Run) : Bool :=
  match r.measurementType with
  | some .distance => true
  | some .time => false
  | none => r.distance.isSome

/-- Sum of `distance` over the distance-measured workouts of a bucket (the
specification's weekly-total summand). -/
def bucketMeasuredSum (runs : List (Option Run)) : ℚ :=
  ((((runs.filterMap id).filter Run.distanceMeasured)).filterMap Run.distance).sum

/-- Sum of `distance` over the distance-measured workouts of a week. -/
def weekMeasuredSum (w : Week) : ℚ :=
  (w.days.toList.map bucketMeasuredSum).sum

/-- The weekly-total invariant actually maintained by the code:
`weeklyTotal` is the rounded sum of the numeric distances. -/
def WeekTotalInv (w : Week) : Prop :=
  w.weeklyTotal = (jsRound (weekNumericSum w) : ℚ)

/-- The weekly-total invariant over the whole plan. -/
def PlanTotalInv (weeks : List Week) : Prop :=
  ∀ w ∈ weeks, WeekTotalInv w

/-- The §3 mutual-exclusion invariant restricted to what matters for
totals: a time-measured workout carries no distance. -/
def MutualExclusion (w : Week) : Prop :=
  ∀ bucket ∈ w.days.toList, ∀ r ∈ bucket.filterMap id,
    r.measurementType = some Measurement.time → r.distance = none

/-- The unrounded converted distance contributed by one run during
`handleUnitToggle` (0 for a falsy distance). -/
def rawConvertedContribution (fromUnit toUnit : DistUnit) (r : Run) : ℚ :=
  match r.distance with
  | some d => if d = 0 then 0 else convertDistance fromUnit toUnit d
  | none => 0

/-- Sum of the unrounded converted distances over one bucket. -/
def rawConvertedBucketSum (fromUnit toUnit : DistUnit) (runs : List (Option Run)) : ℚ :=
  ((runs.filterMap id).map (rawConvertedContribution fromUnit toUnit)).sum

/-- Sum of the unrounded converted distances over one week. -/
def rawConvertedWeekSum (fromUnit toUnit : DistUnit) (w : Week) : ℚ :=
  (w.days.toList.map (rawConvertedBucketSum fromUnit toUnit)).sum

/-- Total number of (non-hole) workouts in a plan. -/
def totalWorkouts (weeks : List Week) : ℕ :=
  (weeks.map (fun w => (w.days.toList.map (fun b => (b.filterMap id).length)).sum)).sum

/-- The workout addressed by a (week index, day, run index) triple, `none`
when the address does not denote an existing workout. -/
def entryAt (weeks : List Week) (weekIndex : ℕ) (day : Day) (runIndex : ℕ) :
    Option Run :=
  weeks[weekIndex]?.bind (fun w => jsGet (w.days.get day) runIndex)

/-- A payload with no `plan` field. -/
def rawMissingPlan (raw : RawSchema) : Bool := raw.plan.isNone

/-- A payload with no `settings` field. -/
def rawMissingSettings (raw : RawSchema) : Bool := raw.settings.isNone

/-- A payload whose plan lacks the `weeks` array. -/
def rawMissingWeeks (raw : RawSchema) : Bool :=
  match raw.plan with
  | some p => p.weeks.isNone
  | none => false

/-- A payload containing a day key outside Mon..Sun. -/
def rawInvalidDayKey (raw : RawSchema) : Bool :=
  match raw.plan with
  | some p => (p.weeks.getD []).any (fun w =>
      ((w.days.getD []).map Prod.fst).any (fun k => !(validDays.contains k)))
  | none => false

/-- A payload containing a workout whose `type` is outside the closed set
(reached through the same key-based lookup the source performs). -/
def rawInvalidRunType (raw : RawSchema) : Bool :=
  match raw.plan with
  | some p => (p.weeks.getD []).any (fun w =>
      let days := w.days.getD []
      (days.map Prod.fst).any (fun dk =>
        (rawDaysLookup days dk).any (fun e =>
          match e with
          | some r =>
              match r.type with
              | some t => !(validRunTypes.contains t)
              | none => true
          | none => false)))
  | none => false

/-- The structural-validation failures enumerated by the claim: invalid day
key, invalid workout type, or missing `weeks`/`settings`/`plan`. -/
def failsStructuralValidation (raw : RawSchema) : Bool :=
  rawMissingPlan raw || rawMissingSettings raw || rawMissingWeeks raw ||
  rawInvalidDayKey raw || rawInvalidRunType raw

/-! ## Concrete example data used by witnesses and counterexamples -/

/-- A distance-measured Easy run. -/
def exRun (d : ℚ) : Run :=
  { id := "r1", type := .Easy, measurementType := some .distance,
    distance := some d, time := none, nickname := none, description := none }

/-- A time-measured Easy run (30 minutes). -/
def exTimeRun : Run :=
  { id := "r2", type := .Easy, measurementType := some .time,
    distance := none, time := some 30, nickname := none, description := none }

/-- An un-normalized legacy-style workout carrying both a numeric distance
and a time while marked time-measured. -/
def exMixedRun : Run :=
  { id := "r3", type := .Easy, measurementType := some .time,
    distance := some 5, time := some 30, nickname := none, description := none }

/-- A single week whose Tuesday holds one 5 km distance-measured run. -/
def exWeek1 : Week :=
  { week := 1, startDate := "2026-01-05",
    days := { DayMap.empty with tue := [some (exRun 5)] }, weeklyTotal := 5 }

/-- The one-week plan around `exWeek1`. -/
def exPlan1 : List Week := [exWeek1]

/-- A week holding only the mixed run, with a stale total. -/
def exMixedWeek : Week :=
  { week := 1, startDate := "2026-01-05",
    days := { DayMap.empty with tue := [some exMixedRun] }, weeklyTotal := 0 }

/-- Week 1 of the two-week move example: one run on Monday. -/
def exWeek2a : Week :=
  { week := 1, startDate := "2026-01-05",
    days := { DayMap.empty with mon := [some (exRun 5)] }, weeklyTotal := 5 }

/-- Week 2 of the two-week move example: entirely empty. -/
def exWeek2b : Week :=
  { week := 2, startDate := "2026-01-12", days := DayMap.empty, weeklyTotal := 0 }

/-- The two-week plan of the §8 move scenario. -/
def exPlan2 : List Week := [exWeek2a, exWeek2b]

/-- What the source leaves in week 1 after the §8 forward move: the run is
removed and the total recomputed. -/
def exWeek2aMoved : Week :=
  { week := 1, startDate := "2026-01-05", days := DayMap.empty, weeklyTotal := 0 }

/-- What the source leaves in week 2 after the §8 forward move: a `null`
hole instead of the moved workout, because the destination branch read the
already-spliced source bucket. -/
def exWeek2bMoved : Week :=
  { week := 2, startDate := "2026-01-12",
    days := { DayMap.empty with fri := [none] }, weeklyTotal := 0 }

/-- A week with twenty 0.7 km distance-measured runs on Monday. -/
def exWeek20 : Week :=
  { week := 1, startDate := "2026-01-05",
    days := { DayMap.empty with mon := List.replicate 20 (some (exRun (7/10))) },
    weeklyTotal := 14 }

/-- The opposite display unit (the `newUnit` computed by
`handleUnitToggle`). -/
def oppositeUnit : DistUnit → DistUnit
  | .km => .miles
  | .miles => .km

/-- The week `handleUnitToggle` produces from `exWeek20`: each stored
distance is the one-decimal rounding 0.4 of the converted 0.4349597, but the
stored total 9 is the rounding of the unrounded sum 8.699194. -/
def exWeek20Conv : Week :=
  { week := 1, startDate := "2026-01-05",
    days := { DayMap.empty with mon := List.replicate 20 (some (exRun (2/5))) },
    weeklyTotal := 9 }

/-- A week with one 0.09 km distance-measured run on Monday. -/
def exWeek009 : Week :=
  { week := 1, startDate := "2026-01-05",
    days := { DayMap.empty with mon := [some (exRun (9/100))] }, weeklyTotal := 0 }

/-- `exWeek009` after km→miles conversion: 0.09 km became 0.1 mi. -/
def exWeek009Mi : Week :=
  { week := 1, startDate := "2026-01-05",
    days := { DayMap.empty with mon := [some (exRun (1/10))] }, weeklyTotal := 0 }

/-- `exWeek009` after the full km→miles→km roundtrip: the 0.09 km distance
came back as 0.2 km, a drift of 0.11 km. -/
def exWeek009RT : Week :=
  { week := 1, startDate := "2026-01-05",
    days := { DayMap.empty with mon := [some (exRun (1/5))] }, weeklyTotal := 0 }

/-- The update object of the §8 measurement-switch scenario. -/
def uScenario : RunUpdates := { measurementType := some .time, time := some 30 }

/-- An update object that switches to time while also supplying a
distance. -/
def uSwitchWithDistance : RunUpdates :=
  { measurementType := some .time, distance := some 7, time := some 30 }

/-- An empty concrete plan used by schema examples. -/
def exTP : TrainingPlan := ⟨[]⟩

/-- Concrete generation settings for the schema examples. -/
def exSettings : PlanSettings :=
  { todayDate := "2026-01-01", raceDate := "2026-03-01", raceDistance := "5k",
    customRaceDistance := none, unit := .km, trainingDays := [] }

/-- A freshly generated schema wrapper. -/
def exSchemaGen : TrainingPlanSchema :=
  { version := "1.0.0", createdAt := "2026-01-01", updatedAt := "2026-01-01",
    source := .generated, settings := exSettings, plan := exTP }

/-- A payload whose `settings` field is missing (plan well-formed). -/
def noSettingsPayload : RawSchema :=
  { version := some "1.0.0", createdAt := some "2026-01-01",
    updatedAt := some "2026-01-01", source := some "imported",
    settings := none, plan := some ⟨some []⟩ }

/-- Concrete form values for the session examples. -/
def exFormValues : FormValues :=
  { todayDate := "2026-01-01", raceDate := "2026-03-01", raceDistance := "5k",
    customRaceDistance := none, unit := "km", trainingDays := [] }

/-- A concrete non-empty session to import into. -/
def exSession : SessionState :=
  { formValues := some exFormValues, plan := some ⟨some []⟩,
    schema := none, step := .edit }

/-- The run produced by the §8 measurement-switch scenario. -/
def exRunScenario : Run :=
  { id := "r1", type := .Easy, measurementType := some .time,
    distance := none, time := some 30, nickname := none, description := none }

/-- The week produced by the §8 measurement-switch scenario: the run is now
time-measured and the total dropped from 5 to 0. -/
def exWeekScenario : Week :=
  { week := 1, startDate := "2026-01-05",
    days := { DayMap.empty with tue := [some exRunScenario] }, weeklyTotal := 0 }

/-! ## Helper lemmas -/

theorem jsMapIdxFrom_getElem? (f : ℕ → α → β) (l : List α) (n i : ℕ) :
    (jsMapIdxFrom f n l)[i]? = l[i]?.map (f (n + i)) := by
  induction l generalizing n i with
  | nil => simp [jsMapIdxFrom]
  | cons a as ih =>
    cases i with
    | zero => simp [jsMapIdxFrom]
    | succ i =>
        simp only [jsMapIdxFrom, List.getElem?_cons_succ]
        rw [ih (n + 1) i]
        have harith : n + 1 + i = n + (i + 1) := by omega
        rw [harith]

theorem jsMapIdx_getElem? (f : ℕ → α → β) (l : List α) (i : ℕ) :
    (jsMapIdx f l)[i]? = l[i]?.map (f i) := by
  simpa [jsMapIdx] using jsMapIdxFrom_getElem? f l 0 i

theorem mem_jsMapIdx {f : ℕ → α → β} {l : List α} {b : β} :
    b ∈ jsMapIdx f l ↔ ∃ i a, l[i]? = some a ∧ b = f i a := by
  constructor
  · intro h
    rcases List.mem_iff_getElem?.mp h with ⟨i, hi⟩
    rw [jsMapIdx_getElem?] at hi
    cases ha : l[i]? with
    | none => rw [ha] at hi; simp at hi
    | some a =>
        rw [ha] at hi
        exact ⟨i, a, ha, (Option.some.injEq _ _ ▸ hi).symm⟩
  · rintro ⟨i, a, ha, rfl⟩
    exact List.getElem?_mem (by rw [jsMapIdx_getElem?, ha]; rfl)

theorem jsMapIdx_eq_self {f : ℕ → α → α} {l : List α}
    (h : ∀ i a, l[i]? = some a → f i a = a) : jsMapIdx f l = l := by
  apply List.ext_getElem?_iff.mpr
  intro n
  rw [jsMapIdx_getElem?]
  cases ha : l[n]? with
  | none => rfl
  | some a => simp [h n a ha]

theorem foldl_add_eq (g : α → ℚ) (l : List α) (init : ℚ) :
    l.foldl (fun acc r => acc + g r) init = init + (l.map g).sum := by
  induction l generalizing init with
  | nil => simp
  | cons a as ih => simp [ih]; ring

theorem sum_distance_getD (l : List Run) :
    (l.map (fun r => r.distance.getD 0)).sum = (l.filterMap Run.distance).sum := by
  induction l with
  | nil => simp
  | cons r rs ih =>
    cases hd : r.distance <;> simp [List.filterMap_cons, hd, ih]

theorem bucketReduce_eq (runs : List (Option Run)) :
    bucketReduce runs = bucketNumericSum runs := by
  unfold bucketReduce bucketNumericSum
  rw [foldl_add_eq, sum_distance_getD]
  simp

theorem recalculateWeeklyTotal_weeklyTotal (w : Week) :
    (recalculateWeeklyTotal w).weeklyTotal = (jsRound (weekNumericSum w) : ℚ) := by
  unfold recalculateWeeklyTotal weekNumericSum
  rw [foldl_add_eq]
  simp [List.map_congr_left (fun b _ => bucketReduce_eq b)]

theorem recalculateWeeklyTotal_inv (w : Week) :
    WeekTotalInv (recalculateWeeklyTotal w) := by
  unfold WeekTotalInv
  rw [recalculateWeeklyTotal_weeklyTotal]
  rfl

theorem DayMap.get_set_self (m : DayMap) (d : Day) (l : List (Option Run)) :
    (m.set d l).get d = l := by
  cases d <;> rfl

theorem DayMap.get_set_ne (m : DayMap) {d d2 : Day} (l : List (Option Run))
    (h : d2 ≠ d) : (m.set d l).get d2 = m.get d2 := by
  cases d <;> cases d2 <;> first | rfl | exact absurd rfl h

theorem DayMap.set_get_self (m : DayMap) (d : Day) : m.set d (m.get d) = m := by
  cases d <;> rfl

theorem Week.setDay_get_self (w : Week) (d : Day) :
    w.setDay d (w.days.get d) = w := by
  unfold Week.setDay
  rw [DayMap.set_get_self]

theorem bucketNumericSum_append (a b : List (Option Run)) :
    bucketNumericSum (a ++ b) = bucketNumericSum a + bucketNumericSum b := by
  simp [bucketNumericSum, List.filterMap_append]

theorem bucketNumericSum_cons (x : Option Run) (l : List (Option Run)) :
    bucketNumericSum (x :: l) = entryDistance x + bucketNumericSum l := by
  cases x with
  | none => simp [bucketNumericSum, entryDistance, List.filterMap_cons]
  | some r =>
    cases hd : r.distance <;>
      simp [bucketNumericSum, entryDistance, List.filterMap_cons, hd]

theorem bucketNumericSum_spliceInsert (l : List (Option Run)) (i : ℕ) (x : Option Run) :
    bucketNumericSum (spliceInsert l i x) = bucketNumericSum l + entryDistance x := by
  unfold spliceInsert
  rw [bucketNumericSum_append, bucketNumericSum_cons]
  have h := bucketNumericSum_append (l.take i) (l.drop i)
  rw [List.take_append_drop] at h
  linarith

theorem bucketNumericSum_spliceRemove (l : List (Option Run)) (i : ℕ) :
    bucketNumericSum (spliceRemove l i)
      = bucketNumericSum l - entryDistance (jsGet l i) := by
  rcases lt_or_le i l.length with h | h
  · have hdrop : l.drop i = l[i] :: l.drop (i + 1) := List.drop_eq_getElem_cons h
    have hsplit : bucketNumericSum l
        = bucketNumericSum (l.take i) + (entryDistance l[i]
          + bucketNumericSum (l.drop (i + 1))) := by
      conv_lhs => rw [← List.take_append_drop i l]
      rw [bucketNumericSum_append, hdrop, bucketNumericSum_cons]
    have hjs : jsGet l i = l[i] := by
      simp [jsGet, List.getElem?_eq_getElem h]
    unfold spliceRemove
    rw [bucketNumericSum_append, hjs]
    linarith
  · have hrem : spliceRemove l i = l := by
      simp [spliceRemove, List.take_of_length_le h,
        List.drop_eq_nil_of_le (Nat.le_succ_of_le h)]
    have hjs : jsGet l i = none := by
      simp [jsGet, List.getElem?_eq_none h]
    simp [hrem, hjs, entryDistance]

theorem weekNumericSum_setDay (w : Week) (d : Day) (l : List (Option Run)) :
    weekNumericSum (w.setDay d l)
      = weekNumericSum w - bucketNumericSum (w.days.get d) + bucketNumericSum l := by
  cases w with
  | mk wk sd days t =>
    cases d <;>
      simp [weekNumericSum, Week.setDay, DayMap.set, DayMap.get, DayMap.toList] <;>
      ring

theorem measuredSum_eq_of_mutex (l : List Run)
    (h : ∀ r ∈ l, r.measurementType = some Measurement.time → r.distance = none) :
    ((l.filter Run.distanceMeasured).filterMap Run.distance).sum
      = (l.filterMap Run.distance).sum := by
  induction l with
  | nil => simp
  | cons r rs ih =>
    have hr := h r (List.mem_cons_self r rs)
    have hrest := fun x hx => h x (List.mem_cons_of_mem r hx)
    by_cases hm : Run.distanceMeasured r
    · cases hd : r.distance <;>
        simp [List.filter_cons, hm, List.filterMap_cons, hd, ih hrest]
    · have hdist : r.distance = none := by
        unfold Run.distanceMeasured at hm
        cases hmt : r.measurementType with
        | none =>
            rw [hmt] at hm
            cases hd : r.distance with
            | none => rfl
            | some d => rw [hd] at hm; simp at hm
        | some m =>
            cases m with
            | distance => rw [hmt] at hm; simp at hm
            | time => exact hr hmt
      simp [List.filter_cons, hm, List.filterMap_cons, hdist, ih hrest]

theorem weekMeasuredSum_eq_of_mutex (w : Week) (h : MutualExclusion w) :
    weekMeasuredSum w = weekNumericSum w := by
  unfold weekMeasuredSum weekNumericSum
  congr 1
  apply List.map_congr_left
  intro b hb
  exact measuredSum_eq_of_mutex (b.filterMap id) (h b hb)

theorem convertRun_snd (u v : DistUnit) (r : Run) :
    (convertRun u v r).2 = rawConvertedContribution u v r := by
  unfold convertRun rawConvertedContribution
  cases r.distance with
  | none => rfl
  | some d => by_cases hd : d = 0 <;> simp [hd]

theorem convertBucket_snd (u v : DistUnit) (runs : List (Option Run)) :
    (convertBucket u v runs).2 = rawConvertedBucketSum u v runs := by
  induction runs with
  | nil => simp [convertBucket, rawConvertedBucketSum]
  | cons e rest ih =>
    cases e with
    | none => simpa [convertBucket, rawConvertedBucketSum, List.filterMap_cons]
        using ih
    | some r =>
        simp [convertBucket, rawConvertedBucketSum, List.filterMap_cons,
          convertRun_snd, List.sum_cons] at ih ⊢
        rw [ih]

theorem convertBucket_fst (u v : DistUnit) (runs : List (Option Run)) :
    (convertBucket u v runs).1
      = runs.map (Option.map (fun r => (convertRun u v r).1)) := by
  induction runs with
  | nil => rfl
  | cons e rest ih =>
    cases e <;> simp [convertBucket, ih]

theorem convertWeek_weeklyTotal (u v : DistUnit) (w : Week) :
    (convertWeek u v w).weeklyTotal = (jsRound (rawConvertedWeekSum u v w) : ℚ) := by
  unfold convertWeek rawConvertedWeekSum DayMap.toList
  simp only [convertBucket_snd]
  congr 1
  simp
  ring_nf

theorem convertWeek_days_get (u v : DistUnit) (w : Week) (d : Day) :
    (convertWeek u v w).days.get d
      = (w.days.get d).map (Option.map (fun r => (convertRun u v r).1)) := by
  cases d <;> simp [convertWeek, DayMap.get, convertBucket_fst]

/-! ## Claim theorems -/

/-- C10: the weekly-total recomputation counts every workout that carries a
numeric `distance`, regardless of its `measurementType` (and touches nothing
but `weeklyTotal`); in particular a workout marked time-measured that still
carries `distance = 5` (as un-normalized legacy data can) contributes its 5
to the recomputed total. -/
theorem recalculate_counts_numeric_distances :
    (∀ w : Week,
      (recalculateWeeklyTotal w).weeklyTotal = (jsRound (weekNumericSum w) : ℚ)
      ∧ (recalculateWeeklyTotal w).days = w.days
      ∧ (recalculateWeeklyTotal w).week = w.week
      ∧ (recalculateWeeklyTotal w).startDate = w.startDate)
    ∧ (recalculateWeeklyTotal exMixedWeek).weeklyTotal = 5 := by
  refine ⟨fun w => ⟨recalculateWeeklyTotal_weeklyTotal w, rfl, rfl, rfl⟩, ?_⟩
  rw [recalculateWeeklyTotal_weeklyTotal]
  simp [weekNumericSum, exMixedWeek, exMixedRun, DayMap.toList, DayMap.empty,
    bucketNumericSum, jsRound]
  norm_num

/-- C9: `updateSchemaAfterEdit` never yields a `generated` source, maps a
`generated` source to `edited`, and keeps any other source, so no sequence
of post-generation edits ever returns `source` to `generated`. -/
theorem schemaSource_monotonic :
    ∀ (now : String) (schema : TrainingPlanSchema) (plan : TrainingPlan),
      (updateSchemaAfterEdit now schema plan).source ≠ Source.generated
      ∧ (schema.source = Source.generated →
          (updateSchemaAfterEdit now schema plan).source = Source.edited)
      ∧ (schema.source ≠ Source.generated →
          (updateSchemaAfterEdit now schema plan).source = schema.source) := by
  intro now schema plan
  unfold updateSchemaAfterEdit
  cases hs : schema.source <;> simp [hs]

/-- Witness for C9 at a concrete generated schema. -/
theorem schemaSource_monotonic_witness :
    (updateSchemaAfterEdit "2026-02-01" exSchemaGen exTP).source = Source.edited :=
  (schemaSource_monotonic "2026-02-01" exSchemaGen exTP).2.1 (by decide)

theorem entryAt_elim {weeks : List Week} {wi : ℕ} {d : Day} {i : ℕ} {run : Run}
    (h : entryAt weeks wi d i = some run) :
    ∃ w, weeks[wi]? = some w ∧ (w.days.get d)[i]? = some (some run) := by
  unfold entryAt at h
  cases hw : weeks[wi]? with
  | none => rw [hw] at h; simp at h
  | some w =>
      rw [hw] at h
      refine ⟨w, rfl, ?_⟩
      rw [Option.some_bind, jsGet] at h
      cases hbv : (w.days.get d)[i]? with
      | none => rw [hbv] at h; simp at h
      | some e =>
          rw [hbv] at h
          cases e with
          | none => simp at h
          | some r => simp at h; rw [h]

theorem spliceRemove_of_length_le {l : List (Option Run)} {i : ℕ}
    (h : l.length ≤ i) : spliceRemove l i = l := by
  simp [spliceRemove, List.take_of_length_le h,
    List.drop_eq_nil_of_le (Nat.le_succ_of_le h)]

theorem applyRunUpdates_distance_cleared (run : Run) (u : RunUpdates)
    (hmt : u.measurementType = some Measurement.time) (hd : u.distance = none) :
    (applyRunUpdates run u).distance = none := by
  unfold applyRunUpdates
  rw [hmt, hd]
  cases u.time <;> cases u.description <;> rfl

theorem applyRunUpdates_time_cleared (run : Run) (u : RunUpdates)
    (hmt : u.measurementType = some Measurement.distance) (ht : u.time = none) :
    (applyRunUpdates run u).time = none := by
  unfold applyRunUpdates
  rw [hmt, ht]
  cases u.distance <;> cases u.description <;> rfl

theorem entryAt_handleUpdateRun_hit {weeks : List Week} {wi : ℕ} {d : Day}
    {i : ℕ} {run : Run} {w : Week} (u : RunUpdates)
    (hw : weeks[wi]? = some w) (hb : (w.days.get d)[i]? = some (some run)) :
    entryAt (handleUpdateRun weeks wi d i u) wi d i
      = some (applyRunUpdates run u) := by
  have hi : i < (w.days.get d).length := by
    rcases List.getElem?_eq_some.mp hb with ⟨hlt, _⟩
    exact hlt
  unfold entryAt handleUpdateRun
  rw [jsMapIdx_getElem?, hw]
  simp only [Option.map_some', if_pos rfl, hb, Option.some_bind]
  show jsGet ((w.setDay d ((w.days.get d).set i (some (applyRunUpdates run u)))).days.get d) i = _
  unfold Week.setDay
  rw [DayMap.get_set_self]
  simp [jsGet, List.getElem?_set_self', hi]

/-- C3 (amended): a mutation call that addresses a non-existent element is
silently ignored rather than reported: `updateWorkout` and `updateNickname`
return the plan unchanged; `removeWorkout` with an out-of-range week returns
it unchanged, and with an out-of-range index inside an existing week returns
it with only that week's total recomputed; `addWorkout` with an out-of-range
week returns it unchanged.  No error channel exists in these code paths. -/
theorem mutation_bad_address_silent :
    (∀ weeks wi d i u, entryAt weeks wi d i = none →
        handleUpdateRun weeks wi d i u = weeks)
    ∧ (∀ weeks wi d i nick, entryAt weeks wi d i = none →
        handleUpdateNickname weeks wi d i nick = weeks)
    ∧ (∀ (weeks : List Week) wi d i, weeks.length ≤ wi →
        handleRemoveRun weeks wi d i = weeks)
    ∧ (∀ weeks wi w d i, weeks[wi]? = some w → (w.days.get d).length ≤ i →
        handleRemoveRun weeks wi d i = weeks.set wi (recalculateWeeklyTotal w))
    ∧ (∀ (weeks : List Week) wi d spec newId, weeks.length ≤ wi →
        handleAddRun weeks wi d spec newId = weeks) := by
  refine ⟨?_, ?_, ?_, ?_, ?_⟩
  · intro weeks wi d i u h
    apply jsMapIdx_eq_self
    intro j w hj
    by_cases hji : j = wi
    · subst hji
      have hnone : jsGet (w.days.get d) i = none := by
        unfold entryAt at h
        rw [hj] at h
        simpa using h
      have hb : (w.days.get d)[i]? = none ∨ (w.days.get d)[i]? = some none := by
        cases hbv : (w.days.get d)[i]? with
        | none => exact Or.inl rfl
        | some e =>
            cases e with
            | none => exact Or.inr rfl
            | some r => rw [jsGet, hbv] at hnone; simp at hnone
      rcases hb with hb | hb <;> simp [hb]
    · simp [hji]
  · intro weeks wi d i nick h
    apply jsMapIdx_eq_self
    intro j w hj
    by_cases hji : j = wi
    · subst hji
      have hnone : jsGet (w.days.get d) i = none := by
        unfold entryAt at h
        rw [hj] at h
        simpa using h
      have hb : (w.days.get d)[i]? = none ∨ (w.days.get d)[i]? = some none := by
        cases hbv : (w.days.get d)[i]? with
        | none => exact Or.inl rfl
        | some e =>
            cases e with
            | none => exact Or.inr rfl
            | some r => rw [jsGet, hbv] at hnone; simp at hnone
      rcases hb with hb | hb <;> simp [hb]
    · simp [hji]
  · intro weeks wi d i h
    apply jsMapIdx_eq_self
    intro j w hj
    have hjlen : j < weeks.length := (List.getElem?_eq_some.mp hj).1
    have : j ≠ wi := by omega
    simp [this]
  · intro weeks wi w d i hw hlen
    have hwi : wi < weeks.length := (List.getElem?_eq_some.mp hw).1
    apply List.ext_getElem?_iff.mpr
    intro n
    rw [handleRemoveRun, jsMapIdx_getElem?]
    by_cases hn : n = wi
    · subst hn
      rw [hw, List.getElem?_set_self (by omega)]
      simp [spliceRemove_of_length_le hlen, Week.setDay_get_self]
    · rw [List.getElem?_set_ne (by omega)]
      cases hv : weeks[n]? with
      | none => rfl
      | some w2 => simp [hn]
  · intro weeks wi d spec newId h
    apply jsMapIdx_eq_self
    intro j w hj
    have hjlen : j < weeks.length := (List.getElem?_eq_some.mp hj).1
    have : j ≠ wi := by omega
    simp [this]

/-- Witness for C3 (amended) at concrete bad addresses. -/
theorem mutation_bad_address_silent_witness :
    handleUpdateRun exPlan1 0 Day.Tue 5 uScenario = exPlan1
    ∧ handleRemoveRun exPlan1 3 Day.Mon 0 = exPlan1
    ∧ handleRemoveRun exPlan1 0 Day.Tue 7
        = exPlan1.set 0 (recalculateWeeklyTotal exWeek1) :=
  ⟨mutation_bad_address_silent.1 exPlan1 0 Day.Tue 5 uScenario (by decide),
   mutation_bad_address_silent.2.2.1 exPlan1 3 Day.Mon 0 (by decide),
   mutation_bad_address_silent.2.2.2.1 exPlan1 0 exWeek1 Day.Tue 7 (by decide) (by decide)⟩

/-- C3 (counterexample to the claim as stated): `updateWorkout` addressed at
index 5 of a one-element bucket silently returns the plan unchanged — there
is no error report, contradicting the claimed failure policy. -/
theorem mutation_bad_address_counterexample :
    handleUpdateRun exPlan1 0 Day.Tue 5 uScenario = exPlan1 := rfl

/-- C4 (amended): when `updateWorkout` is given a `measurementType` and the
updates object does not itself supply the opposite measurement field, the
resulting workout has that opposite field cleared (supplied fields are
applied after the clearing, which is why the proviso is needed); and the §8
scenario holds: updating the 5 km Tuesday run with
`measurementType = time, time = 30` yields a workout with `distance` absent
and `time = 30`, and the week's total drops by 5. -/
theorem updateWorkout_clears_opposite :
    (∀ weeks wi d i u (run : Run), entryAt weeks wi d i = some run →
        u.measurementType = some Measurement.time → u.distance = none →
        (entryAt (handleUpdateRun weeks wi d i u) wi d i).map Run.distance
          = some none)
    ∧ (∀ weeks wi d i u (run : Run), entryAt weeks wi d i = some run →
        u.measurementType = some Measurement.distance → u.time = none →
        (entryAt (handleUpdateRun weeks wi d i u) wi d i).map Run.time
          = some none)
    ∧ handleUpdateRun exPlan1 0 Day.Tue 0 uScenario = [exWeekScenario]
    ∧ exRunScenario.distance = none ∧ exRunScenario.time = some 30
    ∧ exWeek1.weeklyTotal - exWeekScenario.weeklyTotal = 5 := by
  refine ⟨?_, ?_, ?_, rfl, rfl, ?_⟩
  · intro weeks wi d i u run h hmt hd
    obtain ⟨w, hw, hb⟩ := entryAt_elim h
    rw [entryAt_handleUpdateRun_hit u hw hb]
    simp [applyRunUpdates_distance_cleared run u hmt hd]
  · intro weeks wi d i u run h hmt ht
    obtain ⟨w, hw, hb⟩ := entryAt_elim h
    rw [entryAt_handleUpdateRun_hit u hw hb]
    simp [applyRunUpdates_time_cleared run u hmt ht]
  · have hstep : handleUpdateRun exPlan1 0 Day.Tue 0 uScenario
        = [recalculateWeeklyTotal (exWeek1.setDay Day.Tue [some exRunScenario])] := rfl
    rw [hstep]
    have htot : (recalculateWeeklyTotal (exWeek1.setDay Day.Tue [some exRunScenario])).weeklyTotal
        = (0 : ℚ) := by
      rw [recalculateWeeklyTotal_weeklyTotal]
      simp [weekNumericSum, Week.setDay, exWeek1, DayMap.set, DayMap.empty,
        DayMap.toList, bucketNumericSum, exRunScenario, jsRound]
      norm_num
    show [recalculateWeeklyTotal (exWeek1.setDay Day.Tue [some exRunScenario])]
        = [exWeekScenario]
    rw [show exWeekScenario
        = { recalculateWeeklyTotal (exWeek1.setDay Day.Tue [some exRunScenario])
            with weeklyTotal := 0 } from rfl]
    rw [← htot]
  · norm_num [exWeek1, exWeekScenario]

/-- Witness for C4 (amended) at the concrete scenario input. -/
theorem updateWorkout_clears_opposite_witness :
    (entryAt (handleUpdateRun exPlan1 0 Day.Tue 0 uScenario) 0 Day.Tue 0).map
      Run.distance = some none :=
  updateWorkout_clears_opposite.1 exPlan1 0 Day.Tue 0 uScenario (exRun 5) rfl rfl rfl

/-- C4 (counterexample to the claim as stated): an updates object that
switches to time while also supplying `distance = 7` leaves the resulting
workout with `distance = 7` present, not absent. -/
theorem updateWorkout_clears_opposite_counterexample :
    (entryAt (handleUpdateRun exPlan1 0 Day.Tue 0 uSwitchWithDistance) 0 Day.Tue 0).map
      Run.distance = some (some 7)
    ∧ some (7 : ℚ) ≠ (none : Option ℚ) := by
  exact ⟨rfl, by simp⟩

theorem filterMap_replicate (n : ℕ) (a : α) (f : α → Option β) :
    (List.replicate n a).filterMap f
      = match f a with
        | some b => List.replicate n b
        | none => [] := by
  induction n with
  | zero => cases f a <;> simp
  | succ n ih =>
      cases hf : f a <;> simp only [hf] at ih <;>
        simp [List.replicate_succ, List.filterMap_cons, hf, ih]

theorem convertBucket_replicate (u v : DistUnit) (n : ℕ) (r : Run) :
    convertBucket u v (List.replicate n (some r))
      = (List.replicate n (some (convertRun u v r).1), n * (convertRun u v r).2) := by
  induction n with
  | zero => simp [convertBucket]
  | succ n ih =>
      simp [List.replicate_succ, convertBucket, ih]
      ring

theorem Week.ext_fields {w1 w2 : Week} (h1 : w1.week = w2.week)
    (h2 : w1.startDate = w2.startDate) (h3 : w1.days = w2.days)
    (h4 : w1.weeklyTotal = w2.weeklyTotal) : w1 = w2 := by
  cases w1
  cases w2
  simp_all

theorem WeekTotalInv_setDay_of_bucket_eq {w : Week} {d : Day}
    {l : List (Option Run)} (hInv : WeekTotalInv w)
    (hbucket : bucketNumericSum l = bucketNumericSum (w.days.get d)) :
    WeekTotalInv (w.setDay d l) := by
  unfold WeekTotalInv at hInv ⊢
  have hsum : weekNumericSum (w.setDay d l) = weekNumericSum w := by
    rw [weekNumericSum_setDay, hbucket]
    ring
  rw [hsum]
  exact hInv

/-- C1 (amended): the invariant actually maintained is
`weeklyTotal = round (sum of the numeric distances)`; it is preserved by
`addWorkout`, `updateWorkout`, `removeWorkout`, `reorderWithinDay` and
`moveWorkout` (which recompute affected weeks with
`recalculateWeeklyTotal`), it coincides with the claimed
distance-measured-only sum whenever the §3 mutual exclusion holds, but
`convertUnits` stores a total rounded from the unrounded converted
distances rather than from the stored one-decimal distances. -/
theorem weeklyTotal_invariant_amended :
    (∀ weeks wi d spec newId, PlanTotalInv weeks →
        PlanTotalInv (handleAddRun weeks wi d spec newId))
    ∧ (∀ weeks wi d i u, PlanTotalInv weeks →
        PlanTotalInv (handleUpdateRun weeks wi d i u))
    ∧ (∀ weeks wi d i, PlanTotalInv weeks →
        PlanTotalInv (handleRemoveRun weeks wi d i))
    ∧ (∀ weeks wi d fi ti, PlanTotalInv weeks →
        PlanTotalInv (reorderWithinDay weeks wi d fi ti))
    ∧ (∀ weeks f fd fi t td ti, PlanTotalInv weeks →
        PlanTotalInv (moveWorkout weeks f fd fi t td ti))
    ∧ (∀ w, MutualExclusion w → weekMeasuredSum w = weekNumericSum w)
    ∧ (∀ cu weeks, handleUnitToggle cu weeks
        = weeks.map (convertWeek cu (oppositeUnit cu)))
    ∧ (∀ u v w, (convertWeek u v w).weeklyTotal
        = (jsRound (rawConvertedWeekSum u v w) : ℚ)) := by
  refine ⟨?_, ?_, ?_, ?_, ?_, ?_, ?_, ?_⟩
  · intro weeks wi d spec newId hInv w' hw'
    rcases mem_jsMapIdx.mp hw' with ⟨i, w, hi, rfl⟩
    by_cases hiw : i = wi
    · subst hiw
      rw [if_pos rfl]
      exact recalculateWeeklyTotal_inv _
    · rw [if_neg hiw]
      exact hInv w (List.getElem?_mem hi)
  · intro weeks wi d i u hInv w' hw'
    rcases mem_jsMapIdx.mp hw' with ⟨j, w, hj, rfl⟩
    by_cases hjw : j = wi
    · subst hjw
      rw [if_pos rfl]
      cases hb : (w.days.get d)[i]? with
      | none =>
          simp only [hb]
          exact hInv w (List.getElem?_mem hj)
      | some e =>
          cases e with
          | none =>
              simp only [hb]
              exact hInv w (List.getElem?_mem hj)
          | some run =>
              simp only [hb]
              exact recalculateWeeklyTotal_inv _
    · rw [if_neg hjw]
      exact hInv w (List.getElem?_mem hj)
  · intro weeks wi d i hInv w' hw'
    rcases mem_jsMapIdx.mp hw' with ⟨j, w, hj, rfl⟩
    by_cases hjw : j = wi
    · subst hjw
      rw [if_pos rfl]
      exact recalculateWeeklyTotal_inv _
    · rw [if_neg hjw]
      exact hInv w (List.getElem?_mem hj)
  · intro weeks wi d fi ti hInv w' hw'
    rcases mem_jsMapIdx.mp hw' with ⟨j, w, hj, rfl⟩
    by_cases hjw : j = wi
    · subst hjw
      rw [if_pos rfl]
      refine WeekTotalInv_setDay_of_bucket_eq (hInv w (List.getElem?_mem hj)) ?_
      rw [bucketNumericSum_spliceInsert, bucketNumericSum_spliceRemove]
      ring
    · rw [if_neg hjw]
      exact hInv w (List.getElem?_mem hj)
  · intro weeks f fd fi t td ti hInv w' hw'
    rcases mem_jsMapIdx.mp hw' with ⟨j, w, hj, rfl⟩
    by_cases hjf : j = f
    · subst hjf
      rw [if_pos rfl]
      dsimp only
      by_cases hft : j = t
      · rw [if_pos hft]
        exact recalculateWeeklyTotal_inv _
      · rw [if_neg hft]
        exact recalculateWeeklyTotal_inv _
    · rw [if_neg hjf]
      by_cases hjt : j = t
      · rw [if_pos hjt]
        cases hsw : weeks[f]? with
        | none =>
            simp only [hsw]
            exact hInv w (List.getElem?_mem hj)
        | some sw =>
            simp only [hsw]
            exact recalculateWeeklyTotal_inv _
      · rw [if_neg hjt]
        exact hInv w (List.getElem?_mem hj)
  · exact weekMeasuredSum_eq_of_mutex
  · intro cu weeks
    cases cu <;> rfl
  · exact convertWeek_weeklyTotal

/-- Witness for C1 (amended) at a concrete plan. -/
theorem weeklyTotal_invariant_witness :
    PlanTotalInv (handleAddRun exPlan1 0 Day.Wed
      { type := RunType.Long, distance := some 12 } "w1-Wed-Long-x")
    ∧ weekMeasuredSum exWeek1 = weekNumericSum exWeek1 := by
  have hInv : PlanTotalInv exPlan1 := by
    intro w hw
    simp only [exPlan1, List.mem_singleton] at hw
    subst hw
    unfold WeekTotalInv
    simp [weekNumericSum, exWeek1, DayMap.toList, DayMap.empty, bucketNumericSum,
      exRun, jsRound]
    norm_num
  have hmx : MutualExclusion exWeek1 := by
    intro bucket hb r hr hmt
    simp only [exWeek1, DayMap.toList, DayMap.empty] at hb
    fin_cases hb <;> simp_all [exRun]
  exact ⟨weeklyTotal_invariant_amended.1 exPlan1 0 Day.Wed _ _ hInv,
    weeklyTotal_invariant_amended.2.2.2.2.2.1 exWeek1 hmx⟩

/-- C1 (counterexample to the claim as stated): converting a week of twenty
0.7 km runs from km to miles stores per-run distances of 0.4 but a weekly
total of 9, while the rounded sum of the stored distances of its
distance-measured workouts is 8. -/
theorem weeklyTotal_invariant_counterexample :
    handleUnitToggle DistUnit.km [exWeek20] = [exWeek20Conv]
    ∧ exWeek20Conv.weeklyTotal = 9
    ∧ (jsRound (weekMeasuredSum exWeek20Conv) : ℚ) = 8
    ∧ exWeek20Conv.weeklyTotal ≠ (jsRound (weekMeasuredSum exWeek20Conv) : ℚ) := by
  have hrun : (convertRun DistUnit.km DistUnit.miles (exRun (7/10))).1
      = exRun (2/5) := by
    simp only [convertRun, exRun]
    norm_num [convertDistance, kmToMiles, kmMilesFactor, round1, jsRound]
  have hmsum : weekMeasuredSum exWeek20Conv = 8 := by
    unfold weekMeasuredSum exWeek20Conv
    simp [DayMap.toList, DayMap.empty, bucketMeasuredSum,
      filterMap_replicate, List.filter_replicate, Run.distanceMeasured, exRun,
      List.sum_replicate, nsmul_eq_mul]
    norm_num
  refine ⟨?_, rfl, ?_, ?_⟩
  · have hstep : handleUnitToggle DistUnit.km [exWeek20]
        = [convertWeek DistUnit.km DistUnit.miles exWeek20] := rfl
    rw [hstep]
    have hdays : (convertWeek DistUnit.km DistUnit.miles exWeek20).days
        = exWeek20Conv.days := by
      show DayMap.mk _ _ _ _ _ _ _ = _
      simp only [exWeek20, convertBucket_replicate, hrun, convertBucket]
      rfl
    have htot : (convertWeek DistUnit.km DistUnit.miles exWeek20).weeklyTotal
        = exWeek20Conv.weeklyTotal := by
      rw [convertWeek_weeklyTotal]
      simp [rawConvertedWeekSum, exWeek20, exWeek20Conv, DayMap.toList,
        DayMap.empty, rawConvertedBucketSum, filterMap_replicate,
        List.map_replicate, List.sum_replicate, nsmul_eq_mul,
        rawConvertedContribution, exRun, convertDistance, kmToMiles, kmMilesFactor]
      norm_num [jsRound]
    have hweq : convertWeek DistUnit.km DistUnit.miles exWeek20 = exWeek20Conv :=
      @Week.ext_fields _ _ rfl rfl hdays htot
    rw [hweq]
  · rw [hmsum]
    norm_num [jsRound]
  · rw [hmsum]
    norm_num [jsRound, exWeek20Conv]

theorem recalculateWeeklyTotal_congr {w1 w2 : Week} (h1 : w1.week = w2.week)
    (h2 : w1.startDate = w2.startDate) (h3 : w1.days = w2.days) :
    recalculateWeeklyTotal w1 = recalculateWeeklyTotal w2 := by
  cases w1
  cases w2
  simp_all [recalculateWeeklyTotal]

/-- C5 (code bug, evaluated): the §8 move scenario — one workout on week 1
Monday, moved to week 2 Friday of an empty bucket — loses the workout: the
destination branch reads the source bucket after the source iteration
already spliced it in place (shared `days` object through the shallow copy),
reads `undefined`, and inserts a hole.  The total workout count drops from 1
to 0 instead of being preserved. -/
theorem moveWorkout_forward_loses_workout :
    totalWorkouts exPlan2 = 1
    ∧ moveWorkout exPlan2 0 Day.Mon 0 1 Day.Fri 0 = [exWeek2aMoved, exWeek2bMoved]
    ∧ totalWorkouts (moveWorkout exPlan2 0 Day.Mon 0 1 Day.Fri 0) = 0 := by
  have hstep : moveWorkout exPlan2 0 Day.Mon 0 1 Day.Fri 0
      = [recalculateWeeklyTotal (exWeek2a.setDay Day.Mon []),
         recalculateWeeklyTotal (exWeek2b.setDay Day.Fri [none])] := rfl
  have ha : recalculateWeeklyTotal (exWeek2a.setDay Day.Mon []) = exWeek2aMoved := by
    refine @Week.ext_fields _ _ rfl rfl rfl ?_
    rw [recalculateWeeklyTotal_weeklyTotal]
    simp [weekNumericSum, exWeek2a, exWeek2aMoved, Week.setDay, DayMap.set,
      DayMap.empty, DayMap.toList, bucketNumericSum]
    norm_num [jsRound]
  have hb : recalculateWeeklyTotal (exWeek2b.setDay Day.Fri [none]) = exWeek2bMoved := by
    refine @Week.ext_fields _ _ rfl rfl rfl ?_
    rw [recalculateWeeklyTotal_weeklyTotal]
    simp [weekNumericSum, exWeek2b, exWeek2bMoved, Week.setDay, DayMap.set,
      DayMap.empty, DayMap.toList, bucketNumericSum]
    norm_num [jsRound]
  refine ⟨by decide, ?_, ?_⟩
  · rw [hstep, ha, hb]
  · rw [hstep, ha, hb]
    decide

/-- C6: for a same-week cross-day move the final week equals one single
recalculation applied to the bucket set with both the removal and the
insertion already performed — the stored total is never derived from a stale
intermediate bucket set (the intermediate recalculation the source performs
after the removal is overwritten). -/
theorem moveWorkout_sameWeek_singleRecalc :
    ∀ (weeks : List Week) (f : ℕ) (w : Week) (fd td : Day) (fi ti : ℕ),
      weeks[f]? = some w → fd ≠ td →
      (moveWorkout weeks f fd fi f td ti)[f]?
        = some (recalculateWeeklyTotal
            ((w.setDay fd (spliceRemove (w.days.get fd) fi)).setDay td
              (spliceInsert (w.days.get td) ti (jsGet (w.days.get fd) fi)))) := by
  intro weeks f w fd td fi ti hw hne
  unfold moveWorkout
  rw [jsMapIdx_getElem?, hw]
  simp only [Option.map_some', if_pos rfl, ite_true]
  congr 1
  refine recalculateWeeklyTotal_congr ?_ ?_ ?_
  · rfl
  · rfl
  · show ((w.setDay fd (spliceRemove (w.days.get fd) fi)).days).set td _
        = ((w.setDay fd (spliceRemove (w.days.get fd) fi)).days).set td _
    congr 1
    show spliceInsert ((w.days.set fd (spliceRemove (w.days.get fd) fi)).get td) ti _ = _
    rw [DayMap.get_set_ne _ _ (Ne.symm hne)]

/-- Witness for C6 at a concrete same-week Monday-to-Tuesday move. -/
theorem moveWorkout_sameWeek_singleRecalc_witness :
    (moveWorkout exPlan2 0 Day.Mon 0 0 Day.Tue 0)[0]?
      = some (recalculateWeeklyTotal
          ((exWeek2a.setDay Day.Mon (spliceRemove (exWeek2a.days.get Day.Mon) 0)).setDay
            Day.Tue (spliceInsert (exWeek2a.days.get Day.Tue) 0
              (jsGet (exWeek2a.days.get Day.Mon) 0)))) :=
  moveWorkout_sameWeek_singleRecalc exPlan2 0 exWeek2a Day.Mon Day.Tue 0 0
    (by decide) (by decide)

theorem planValidationErrors_ne_nil_of_week {ws : List RawWeek} {w : RawWeek}
    (hmem : w ∈ ws) (hne : weekValidationErrors w ≠ []) :
    planValidationErrors ws ≠ [] := by
  unfold planValidationErrors
  intro hnil
  obtain ⟨e, he⟩ := List.exists_mem_of_ne_nil _ hne
  have hmem2 : e ∈ (ws.map weekValidationErrors).flatten :=
    List.mem_flatten.mpr ⟨weekValidationErrors w, List.mem_map_of_mem _ hmem, he⟩
  rw [hnil] at hmem2
  exact absurd hmem2 (List.not_mem_nil e)

theorem weekValidationErrors_ne_nil_of_invalidKey {w : RawWeek} {k : String}
    (hk : k ∈ (w.days.getD []).map Prod.fst) (hkv : k ∉ validDays) :
    weekValidationErrors w ≠ [] := by
  unfold weekValidationErrors
  have hfilter : ((w.days.getD []).map Prod.fst).filter
      (fun k => k ∉ validDays) ≠ [] :=
    List.ne_nil_of_mem (List.mem_filter.mpr ⟨hk, by simpa using hkv⟩)
  dsimp only
  rw [if_pos (List.length_pos.mpr hfilter)]
  simp

theorem runTypeErrors_ne_nil {weekNum : Option ℤ} {dayKey : String}
    {runs : List (Option RawRun)} {r : RawRun}
    (hmem : some r ∈ runs)
    (hbad : (match r.type with
             | some t => decide (t ∉ validRunTypes)
             | none => true) = true) :
    runTypeErrors weekNum dayKey runs ≠ [] := by
  unfold runTypeErrors
  obtain ⟨i, hi⟩ := List.mem_iff_getElem?.mp hmem
  intro hnil
  have hmember : [("Week " ++ showOptInt weekNum ++ ", " ++ dayKey ++ ", run "
      ++ toString (i + 1) ++ ": Invalid run type \""
      ++ r.type.getD "undefined" ++ "\". Expected one of: "
      ++ String.intercalate ", " validRunTypes)]
      ∈ jsMapIdx (fun runIndex entry =>
          match entry with
          | none => ([] : List String)
          | some run =>
              let bad := match run.type with
                | some t => decide (t ∉ validRunTypes)
                | none => true
              if bad then
                ["Week " ++ showOptInt weekNum ++ ", " ++ dayKey ++ ", run "
                  ++ toString (runIndex + 1) ++ ": Invalid run type \""
                  ++ run.type.getD "undefined" ++ "\". Expected one of: "
                  ++ String.intercalate ", " validRunTypes]
              else []) runs := by
    apply List.getElem?_mem
    rw [jsMapIdx_getElem?, hi]
    simp only [Option.map_some']
    rw [if_pos hbad]
  have hmsg : ("Week " ++ showOptInt weekNum ++ ", " ++ dayKey ++ ", run "
      ++ toString (i + 1) ++ ": Invalid run type \""
      ++ r.type.getD "undefined" ++ "\". Expected one of: "
      ++ String.intercalate ", " validRunTypes)
      ∈ (jsMapIdx (fun runIndex entry =>
          match entry with
          | none => ([] : List String)
          | some run =>
              let bad := match run.type with
                | some t => decide (t ∉ validRunTypes)
                | none => true
              if bad then
                ["Week " ++ showOptInt weekNum ++ ", " ++ dayKey ++ ", run "
                  ++ toString (runIndex + 1) ++ ": Invalid run type \""
                  ++ run.type.getD "undefined" ++ "\". Expected one of: "
                  ++ String.intercalate ", " validRunTypes]
              else []) runs).flatten :=
    List.mem_flatten.mpr ⟨_, hmember, List.mem_singleton.mpr rfl⟩
  rw [hnil] at hmsg
  exact absurd hmsg (List.not_mem_nil _)

theorem weekValidationErrors_ne_nil_of_invalidType {w : RawWeek} {dk : String}
    {r : RawRun}
    (hdk : dk ∈ (w.days.getD []).map Prod.fst)
    (hmem : some r ∈ rawDaysLookup (w.days.getD []) dk)
    (hbad : (match r.type with
             | some t => decide (t ∉ validRunTypes)
             | none => true) = true) :
    weekValidationErrors w ≠ [] := by
  unfold weekValidationErrors
  intro hnil
  rcases List.append_eq_nil.mp hnil with ⟨_, hruns⟩
  have hne : runTypeErrors w.week dk (rawDaysLookup (w.days.getD []) dk) ≠ [] :=
    runTypeErrors_ne_nil hmem hbad
  obtain ⟨e, he⟩ := List.exists_mem_of_ne_nil _ hne
  have hmem2 : e ∈ (((w.days.getD []).map Prod.fst).map
      (fun dk => runTypeErrors w.week dk
        (rawDaysLookup (w.days.getD []) dk))).flatten :=
    List.mem_flatten.mpr ⟨_, List.mem_map_of_mem _ hdk, he⟩
  rw [hruns] at hmem2
  exact absurd hmem2 (List.not_mem_nil e)

/-- C2: a file-import payload that fails structural validation — missing
`plan`, missing `settings`, missing `weeks`, an invalid day key, or an
invalid workout type — is rejected with a surfaced error while the
session's document (schema wrapper, plan, generation parameters, step) is
left entirely unchanged: the zod layer rejects missing fields (and invalid
day keys and run types) at the gate, and a day-key or run-type violation
that reaches `importPlanSchema` throws there before any slot is written;
the proof covers both layers, so the conclusion does not depend on which
one rejects first. -/
theorem importRejected_leavesSessionUnchanged :
    ∀ (st : SessionState) (raw : RawSchema),
      failsStructuralValidation raw = true →
      (importFile st raw).1 = st ∧ (importFile st raw).2.isSome = true := by
  intro st raw h
  by_cases hv : validateSchema raw = true
  · have hv' := hv
    unfold validateSchema at hv'
    simp only [Bool.and_eq_true] at hv'
    obtain ⟨⟨⟨⟨⟨hver, hcreated⟩, hupd⟩, hsrc⟩, hsettings⟩, hplan⟩ := hv'
    cases hp : raw.plan with
    | none => rw [hp] at hplan; simp at hplan
    | some p =>
      cases hws : p.weeks with
      | none => rw [hp] at hplan; simp only [hws] at hplan; simp at hplan
      | some ws =>
        cases hs : raw.settings with
        | none => rw [hs] at hsettings; simp at hsettings
        | some s =>
          unfold failsStructuralValidation at h
          simp only [Bool.or_eq_true] at h
          have herr : planValidationErrors ws ≠ [] := by
            rcases h with ((((h | h) | h) | h) | h)
            · unfold rawMissingPlan at h; rw [hp] at h; simp at h
            · unfold rawMissingSettings at h; rw [hs] at h; simp at h
            · unfold rawMissingWeeks at h
              rw [hp] at h
              simp only [hws] at h
              simp at h
            · unfold rawInvalidDayKey at h
              rw [hp] at h
              simp only [hws, Option.getD_some] at h
              rcases List.any_eq_true.mp h with ⟨w, hwmem, hkey⟩
              rcases List.any_eq_true.mp hkey with ⟨k, hkmem, hknot⟩
              have hkv : k ∉ validDays := by simpa using hknot
              exact planValidationErrors_ne_nil_of_week hwmem
                (weekValidationErrors_ne_nil_of_invalidKey hkmem hkv)
            · unfold rawInvalidRunType at h
              rw [hp] at h
              simp only [hws, Option.getD_some] at h
              rcases List.any_eq_true.mp h with ⟨w, hwmem, hkey⟩
              rcases List.any_eq_true.mp hkey with ⟨dk, hdkmem, hlook⟩
              rcases List.any_eq_true.mp hlook with ⟨e, hemem, hbad⟩
              cases e with
              | none => simp at hbad
              | some r =>
                  replace hbad : (match r.type with
                      | some t => !validRunTypes.contains t
                      | none => true) = true := hbad
                  have hbad2 : (match r.type with
                      | some t => decide (t ∉ validRunTypes)
                      | none => true) = true := by
                    cases ht : r.type with
                    | none => rfl
                    | some t =>
                        rw [ht] at hbad
                        simp only [Bool.not_eq_true'] at hbad
                        simp only [decide_eq_true_eq]
                        simpa using hbad
                  exact planValidationErrors_ne_nil_of_week hwmem
                    (weekValidationErrors_ne_nil_of_invalidType hdkmem hemem hbad2)
          unfold importFile
          rw [if_pos hv]
          unfold importPlanSchema
          rw [hp]
          simp only [hws]
          rw [if_pos (List.length_pos.mpr herr)]
          exact ⟨rfl, rfl⟩
  · unfold importFile
    rw [if_neg hv]
    exact ⟨rfl, rfl⟩

/-- Witness for C2 at a concrete payload whose `settings` field is
missing, imported into a concrete non-empty session. -/
theorem importRejected_witness :
    (importFile exSession noSettingsPayload).1 = exSession
    ∧ (importFile exSession noSettingsPayload).2.isSome = true := by
  exact importRejected_leavesSessionUnchanged exSession noSettingsPayload (by decide)

theorem jsGet_map (g : Run → Run) (l : List (Option Run)) (i : ℕ) :
    jsGet (l.map (Option.map g)) i = (jsGet l i).map g := by
  unfold jsGet
  rw [List.getElem?_map]
  cases l[i]? with
  | none => rfl
  | some e => cases e <;> rfl

theorem kmMilesFactor_pos : (0 : ℚ) < kmMilesFactor := by
  norm_num [kmMilesFactor]

theorem jsRound_le (q : ℚ) : (jsRound q : ℚ) ≤ q + 1/2 := by
  unfold jsRound
  exact Int.floor_le (q + 1/2)

theorem jsRound_gt (q : ℚ) : q - 1/2 < (jsRound q : ℚ) := by
  unfold jsRound
  have h := Int.lt_floor_add_one (q + 1/2)
  linarith

theorem roundtrip_tenths_core (k : ℕ) (h1 : 1 ≤ k) :
    ∃ n : ℤ, round1 (milesToKm (round1 (kmToMiles ((k : ℚ)/10)))) = (n : ℚ)/10
      ∧ |(n : ℚ) - k| ≤ 1
      ∧ round1 (kmToMiles ((k : ℚ)/10)) ≠ 0 := by
  have hc := kmMilesFactor_pos
  have hk1 : (1 : ℚ) ≤ (k : ℚ) := by exact_mod_cast h1
  set c := kmMilesFactor
  have hm : round1 (kmToMiles ((k : ℚ)/10)) = (jsRound ((k : ℚ) * c) : ℚ)/10 := by
    unfold round1 kmToMiles
    congr 2
    ring
  set j := jsRound ((k : ℚ) * c) with hj
  have hjle : (j : ℚ) ≤ (k : ℚ) * c + 1/2 := jsRound_le _
  have hjgt : (k : ℚ) * c - 1/2 < (j : ℚ) := jsRound_gt _
  have hcval : c = 621371/1000000 := rfl
  have hj1 : (1 : ℚ) ≤ (j : ℚ) := by
    have : (1 : ℤ) ≤ j := by
      rw [hj]
      unfold jsRound
      rw [Int.le_floor]
      push_cast
      nlinarith
    exact_mod_cast this
  have hjne : ((j : ℚ)/10) ≠ 0 := by
    have hpos : (0 : ℚ) < (j : ℚ)/10 := by linarith
    linarith
  refine ⟨⌊(j : ℚ)/c + 1/2⌋, ?_, ?_, ?_⟩
  · rw [hm]
    have harg : milesToKm ((j : ℚ)/10) * 10 = (j : ℚ)/c := by
      unfold milesToKm
      field_simp
      rw [show kmMilesFactor = c from rfl]
      ring
    unfold round1
    rw [harg]
    rfl
  · have hdiv : (j : ℚ)/c ≤ (k : ℚ) + 81/100 := by
      rw [div_le_iff₀ hc]
      nlinarith
    have hdiv2 : (k : ℚ) - 81/100 < (j : ℚ)/c := by
      rw [lt_div_iff₀ hc]
      nlinarith
    have hub : (⌊(j : ℚ)/c + 1/2⌋ : ℤ) < (k : ℤ) + 2 := by
      rw [Int.floor_lt]
      push_cast
      linarith
    have hlb : ((k : ℤ) - 1) ≤ ⌊(j : ℚ)/c + 1/2⌋ := by
      rw [Int.le_floor]
      push_cast
      linarith
    rw [abs_le]
    constructor
    · have : ((k : ℤ) - 1 : ℚ) ≤ (⌊(j : ℚ)/c + 1/2⌋ : ℚ) := by exact_mod_cast hlb
      push_cast at this ⊢
      linarith
    · have : (⌊(j : ℚ)/c + 1/2⌋ : ℤ) ≤ (k : ℤ) + 1 := by omega
      have h2 : ((⌊(j : ℚ)/c + 1/2⌋ : ℤ) : ℚ) ≤ ((k : ℤ) + 1 : ℚ) := by exact_mod_cast this
      push_cast at h2 ⊢
      linarith
  · rw [hm]
    exact hjne

/-- C7 (amended): for every workout whose distance is a nonnegative integer
multiple of 0.1 (every distance the engine itself stores after a conversion
has one decimal, and the UI enters 0.1 steps), the km→miles→km roundtrip
through `handleUnitToggle` yields a distance within 0.1 km of the original;
arbitrary distances can drift by up to about 0.13 km. -/
theorem convertUnits_roundtrip_amended :
    ∀ (weeks : List Week) (wi : ℕ) (w : Week) (d : Day) (i : ℕ) (r : Run) (k : ℕ),
      weeks[wi]? = some w → jsGet (w.days.get d) i = some r →
      r.distance = some ((k : ℚ)/10) →
      ∃ w2 r2 d2,
        (handleUnitToggle DistUnit.miles (handleUnitToggle DistUnit.km weeks))[wi]?
          = some w2
        ∧ jsGet (w2.days.get d) i = some r2
        ∧ r2.distance = some d2
        ∧ |d2 - (k : ℚ)/10| ≤ 1/10 := by
  intro weeks wi w d i r k hw hr hd
  have hstep : handleUnitToggle DistUnit.miles (handleUnitToggle DistUnit.km weeks)
      = (weeks.map (convertWeek DistUnit.km DistUnit.miles)).map
          (convertWeek DistUnit.miles DistUnit.km) := rfl
  refine ⟨convertWeek DistUnit.miles DistUnit.km
            (convertWeek DistUnit.km DistUnit.miles w),
          (convertRun DistUnit.miles DistUnit.km
            ((convertRun DistUnit.km DistUnit.miles r).1)).1, ?_⟩
  rw [hstep]
  have hw2 : ((weeks.map (convertWeek DistUnit.km DistUnit.miles)).map
      (convertWeek DistUnit.miles DistUnit.km))[wi]?
      = some (convertWeek DistUnit.miles DistUnit.km
          (convertWeek DistUnit.km DistUnit.miles w)) := by
    rw [List.getElem?_map, List.getElem?_map, hw]
    rfl
  have hr2 : jsGet ((convertWeek DistUnit.miles DistUnit.km
      (convertWeek DistUnit.km DistUnit.miles w)).days.get d) i
      = some ((convertRun DistUnit.miles DistUnit.km
          ((convertRun DistUnit.km DistUnit.miles r).1)).1) := by
    rw [convertWeek_days_get, convertWeek_days_get, List.map_map]
    have : (Option.map (fun r => (convertRun DistUnit.miles DistUnit.km r).1) ∘
        Option.map (fun r => (convertRun DistUnit.km DistUnit.miles r).1))
        = Option.map ((fun r => (convertRun DistUnit.miles DistUnit.km r).1) ∘
            (fun r => (convertRun DistUnit.km DistUnit.miles r).1)) := by
      funext o
      cases o <;> rfl
    rw [this, jsGet_map, hr]
    rfl
  rcases Nat.eq_zero_or_pos k with hk0 | hkpos
  · subst hk0
    have hd0 : r.distance = some 0 := by rw [hd]; norm_num
    have hfix1 : (convertRun DistUnit.km DistUnit.miles r).1 = r := by
      unfold convertRun
      rw [hd0]
      simp
    have hfix2 : (convertRun DistUnit.miles DistUnit.km r).1 = r := by
      unfold convertRun
      rw [hd0]
      simp
    refine ⟨0, hw2, hr2, ?_, by norm_num⟩
    rw [hfix1, hfix2, hd0]
  · obtain ⟨n, hn, hnk, hmne⟩ := roundtrip_tenths_core k hkpos
    have hdne : ((k : ℚ)/10) ≠ 0 := by
      have : (0 : ℚ) < (k : ℚ)/10 := by
        have : (0 : ℚ) < (k : ℚ) := by exact_mod_cast hkpos
        linarith
      linarith
    have hconv1 : (convertRun DistUnit.km DistUnit.miles r).1
        = { r with distance := some (round1 (kmToMiles ((k : ℚ)/10))) } := by
      unfold convertRun
      rw [hd]
      simp [hdne, convertDistance]
    have hconv2 : (convertRun DistUnit.miles DistUnit.km
        ((convertRun DistUnit.km DistUnit.miles r).1)).1.distance
        = some (round1 (milesToKm (round1 (kmToMiles ((k : ℚ)/10))))) := by
      rw [hconv1]
      unfold convertRun
      simp [hmne, convertDistance]
    refine ⟨(n : ℚ)/10, hw2, hr2, ?_, ?_⟩
    · rw [hconv2, hn]
    · rw [div_sub_div_same, abs_div]
      rw [show |(10 : ℚ)| = 10 from by norm_num]
      linarith [hnk]

/-- Witness for C7 (amended) at a 5 km run (5 = 50 tenths). -/
theorem convertUnits_roundtrip_witness :
    ∃ w2 r2 d2,
      (handleUnitToggle DistUnit.miles (handleUnitToggle DistUnit.km [exWeek2a]))[0]?
        = some w2
      ∧ jsGet (w2.days.get Day.Mon) 0 = some r2
      ∧ r2.distance = some d2
      ∧ |d2 - ((50 : ℕ) : ℚ)/10| ≤ 1/10 :=
  convertUnits_roundtrip_amended [exWeek2a] 0 exWeek2a Day.Mon 0 (exRun 5) 50
    rfl rfl (by simp only [exRun]; norm_num)

/-- C7 (counterexample to the claim as stated): a 0.09 km distance-measured
workout comes back from the km→miles→km roundtrip as 0.2 km — a drift of
0.11 km, outside the claimed 0.1 km tolerance. -/
theorem convertUnits_roundtrip_counterexample :
    handleUnitToggle DistUnit.miles (handleUnitToggle DistUnit.km [exWeek009])
      = [exWeek009RT]
    ∧ ¬ (|(1/5 : ℚ) - 9/100| ≤ 1/10) := by
  have hrunA : (convertRun DistUnit.km DistUnit.miles (exRun (9/100))).1
      = exRun (1/10) := by
    simp only [convertRun, exRun]
    norm_num [convertDistance, kmToMiles, kmMilesFactor, round1, jsRound]
  have hrunB : (convertRun DistUnit.miles DistUnit.km (exRun (1/10))).1
      = exRun (1/5) := by
    simp only [convertRun, exRun]
    norm_num [convertDistance, milesToKm, kmMilesFactor, round1, jsRound]
  have hA : convertWeek DistUnit.km DistUnit.miles exWeek009 = exWeek009Mi := by
    refine @Week.ext_fields _ _ rfl rfl ?_ ?_
    · show DayMap.mk _ _ _ _ _ _ _ = _
      simp only [exWeek009, convertBucket, hrunA]
      rfl
    · rw [convertWeek_weeklyTotal]
      simp [rawConvertedWeekSum, exWeek009, exWeek009Mi, DayMap.toList,
        DayMap.empty, rawConvertedBucketSum, rawConvertedContribution, exRun,
        convertDistance, kmToMiles, kmMilesFactor]
      norm_num [jsRound]
  have hB : convertWeek DistUnit.miles DistUnit.km exWeek009Mi = exWeek009RT := by
    refine @Week.ext_fields _ _ rfl rfl ?_ ?_
    · show DayMap.mk _ _ _ _ _ _ _ = _
      simp only [exWeek009Mi, convertBucket, hrunB]
      rfl
    · rw [convertWeek_weeklyTotal]
      simp [rawConvertedWeekSum, exWeek009Mi, exWeek009RT, DayMap.toList,
        DayMap.empty, rawConvertedBucketSum, rawConvertedContribution, exRun,
        convertDistance, milesToKm, kmMilesFactor]
      norm_num [jsRound]
  constructor
  · have hstep : handleUnitToggle DistUnit.miles (handleUnitToggle DistUnit.km [exWeek009])
        = [convertWeek DistUnit.miles DistUnit.km
            (convertWeek DistUnit.km DistUnit.miles exWeek009)] := rfl
    rw [hstep, hA, hB]
  · have hval : |(1/5 : ℚ) - 9/100| = 11/100 := by
      rw [show (1/5 : ℚ) - 9/100 = 11/100 from by norm_num]
      rw [abs_of_nonneg (by norm_num : (0 : ℚ) ≤ 11/100)]
    rw [hval]
    norm_num

end RunPlan
